import Mathlib

/-!
Verification of the error-autopsy analytics engine.

The definitions below are shallow embeddings of the Python source:
`config/settings.py` (pace and accuracy zone classification) and
`src/analysis/metrics.py` (counting, filtering and aggregation of error
records, study sessions and mock exams).  Python floats are modelled as
rationals, Python `None`/missing dict keys as `Option`, Python dicts
(which preserve insertion order) as association lists and machine
strings as Lean strings.
-/

namespace ErrorAutopsy

/-- Accuracy thresholds from `config/settings.py`, class `AccuracyZone`. -/
def AccuracyZone.MASTERY_THRESHOLD : ℚ := 80

/-- Developing threshold from `config/settings.py`, class `AccuracyZone`. -/
def AccuracyZone.DEVELOPING_THRESHOLD : ℚ := 60

/-- Pace multiplier from `config/settings.py`, class `PaceZone` (`0.5`). -/
def PaceZone.RUSHING_MULTIPLIER : ℚ := 1/2

/-- Pace multiplier from `config/settings.py`, class `PaceZone` (`1.2`). -/
def PaceZone.OPTIMAL_MAX_MULTIPLIER : ℚ := 6/5

/-- Embedding of `PaceZone.classify` from `config/settings.py` lines 157-165:
classify pace relative to exam benchmark. -/
def PaceZone.classify (pace benchmark : ℚ) : String :=
  if pace < benchmark * PaceZone.RUSHING_MULTIPLIER then "Rushing"
  else if pace ≤ benchmark * PaceZone.OPTIMAL_MAX_MULTIPLIER then "Optimal"
  else "Too Slow"

/-- Embedding of the combined performance-zone branch of
`analyze_session_performance`, `src/analysis/metrics.py` lines 375-387:
the if/elif chain assigning `s["performance_zone"]` from the already
computed pace zone string and the accuracy percentage. -/
def classify_performance_zone (pace_zone : String) (accuracy : ℚ) : String :=
  if pace_zone = "Rushing" ∧ accuracy < AccuracyZone.DEVELOPING_THRESHOLD then
    "Rushing & Struggling"
  else if pace_zone = "Rushing" ∧ accuracy ≥ AccuracyZone.MASTERY_THRESHOLD then
    "Rushing & Accurate (Risky)"
  else if pace_zone = "Optimal" ∧ accuracy ≥ AccuracyZone.MASTERY_THRESHOLD then
    "Mastery Zone"
  else if pace_zone = "Too Slow" ∧ accuracy ≥ AccuracyZone.MASTERY_THRESHOLD then
    "Slow but Accurate"
  else "Needs Improvement"

/-- The decision table exactly as the specification states it, written from
the spec text (row by row, with the literal thresholds 60 and 80): to be
compared with the implementation `classify_performance_zone`. -/
def spec_performance_zone_table (pace_zone : String) (accuracy : ℚ) : String :=
  if pace_zone = "Rushing" ∧ accuracy < 60 then "Rushing & Struggling"
  else if pace_zone = "Rushing" ∧ 80 ≤ accuracy then "Rushing & Accurate (Risky)"
  else if pace_zone = "Optimal" ∧ 80 ≤ accuracy then "Mastery Zone"
  else if pace_zone = "Too Slow" ∧ 80 ≤ accuracy then "Slow but Accurate"
  else "Needs Improvement"

/-- A Python value as it may occur in a record field: a string, `None`, or
some other non-string value (modelled here by an integer). -/
inductive PyVal where
  | vstr (s : String)
  | vnone
  | vint (n : ℤ)
deriving DecidableEq

/-- An error record (a Python dict).  `none` in a field models a missing
key or a key explicitly set to a value the code treats as absent.  The
`type` key is called `etype` because `type` is reserved in Lean. -/
structure ErrorRec where
  etype : Option PyVal := none
  subject : Option PyVal := none
  topic : Option PyVal := none
  date : Option String := none
  mock_exam_id : Option String := none
deriving DecidableEq

/-- Characters removed by Python `str.strip()` (ASCII whitespace). -/
def pyIsSpace (c : Char) : Bool :=
  c = ' ' || c = '\t' || c = '\n' || c = '\r' || c = '\x0b' || c = '\x0c'

/-- List-level model of Python `str.strip()`: drop leading and trailing
whitespace. -/
def stripList (l : List Char) : List Char :=
  ((l.dropWhile pyIsSpace).reverse.dropWhile pyIsSpace).reverse

/-- Python `str.strip()` on strings. -/
def pyStrip (s : String) : String := ⟨stripList s.data⟩

/-- Python `counts[key] = counts.get(key, 0) + 1` on an insertion-ordered
dict, modelled as an association list. -/
def bump {α : Type} [DecidableEq α] : List (α × ℕ) → α → List (α × ℕ)
  | [], k => [(k, 1)]
  | (k1, v) :: rest, k =>
      if k1 = k then (k1, v + 1) :: rest else (k1, v) :: bump rest k

/-- Key used by `count_error_types`, `src/analysis/metrics.py` line 38:
`error.get("type", "Unknown")` — the raw value, with no strip or blank
check. -/
def typeKey (r : ErrorRec) : PyVal := r.etype.getD (PyVal.vstr "Unknown")

/-- Key normalization shared by `count_subjects` and `count_topics`
(`src/analysis/metrics.py` lines 58-61 and 81-84): strip when the raw
value is a string, substitute `"Unknown"` for non-strings and for values
that are blank after stripping.  The source applies the `if not subject`
blank check after both branches; `"Unknown"` is nonempty, so checking it
only in the string branch is equivalent. -/
def normalizeKey (raw : PyVal) : String :=
  match raw with
  | PyVal.vstr s => if pyStrip s = "" then "Unknown" else pyStrip s
  | _ => "Unknown"

/-- Key used by `count_subjects`: `subj.get("subject", "Unknown")`,
normalized. -/
def subjectKey (r : ErrorRec) : String :=
  normalizeKey (r.subject.getD (PyVal.vstr "Unknown"))

/-- Key used by `count_topics`: `top.get("topic", "Unknown")`,
normalized. -/
def topicKey (r : ErrorRec) : String :=
  normalizeKey (r.topic.getD (PyVal.vstr "Unknown"))

/-- Embedding of `count_error_types`, `src/analysis/metrics.py`
lines 23-41. -/
def count_error_types (data : List ErrorRec) : List (PyVal × ℕ) :=
  if data = [] then []
  else data.foldl (fun acc r => bump acc (typeKey r)) []

/-- Embedding of `count_subjects`, `src/analysis/metrics.py`
lines 44-64. -/
def count_subjects (data : List ErrorRec) : List (String × ℕ) :=
  if data = [] then []
  else data.foldl (fun acc r => bump acc (subjectKey r)) []

/-- Embedding of `count_topics`, `src/analysis/metrics.py` lines 67-87. -/
def count_topics (data : List ErrorRec) : List (String × ℕ) :=
  if data = [] then []
  else data.foldl (fun acc r => bump acc (topicKey r)) []

/-- The constant `DAYS_PER_MONTH` from `config/settings.py` line 348. -/
def DAYS_PER_MONTH : ℤ := 30

/-- Per-item predicate of the loop of `filter_data_by_range`
(`src/analysis/metrics.py` lines 138-149): skip a record whose `date` is
missing or falsy (`if not raw_date: continue`), skip it when
`datetime.strptime` fails (`except ... continue`), and otherwise keep it
exactly when the parsed datetime is at or after the cutoff.  Datetimes
are modelled as rationals (days); `pd` models `datetime.strptime` with
`DATE_FORMAT_DISPLAY`. -/
def keepInRange (pd : String → Option ℚ) (cutoff : ℚ) (item : ErrorRec) : Bool :=
  match item.date with
  | none => false
  | some s =>
      if s = "" then false
      else
        match pd s with
        | none => false
        | some dt => cutoff ≤ dt

/-- Embedding of `filter_data_by_range`, `src/analysis/metrics.py`
lines 111-150.  `months = none` models Python `None` (all time);
`months = some m` models an integer month count.  `monthStart` models
`now.replace(day=1, hour=0, minute=0, second=0, microsecond=0)` (the
calendar computation is opaque to the claims, so it is a parameter), and
`now - m * DAYS_PER_MONTH` models `now - timedelta(days=months * 30)`. -/
def filter_data_by_range (pd : String → Option ℚ) (monthStart : ℚ → ℚ)
    (now : ℚ) (data : List ErrorRec) (months : Option ℤ) : List ErrorRec :=
  if data = [] then []
  else
    match months with
    | none => data
    | some m =>
        let cutoff := if m = 0 then monthStart now
          else now - (m * DAYS_PER_MONTH : ℤ)
        data.filter (fun item => keepInRange pd cutoff item)

/-- A study session record (a Python dict); `none` models a missing key. -/
structure Session where
  subject : Option String := none
  total_questions : Option ℚ := none
  correct_count : Option ℚ := none
  duration_minutes : Option ℚ := none
  date : Option String := none
deriving DecidableEq

/-- Python 3 `round` to an integer: round half to even. -/
def pyRoundInt (q : ℚ) : ℤ :=
  if q - ⌊q⌋ < 1/2 then ⌊q⌋
  else if 1/2 < q - ⌊q⌋ then ⌊q⌋ + 1
  else if ⌊q⌋ % 2 = 0 then ⌊q⌋ else ⌊q⌋ + 1

/-- Python 3 `round(q, n)` to `n` decimal places. -/
def pyRound (q : ℚ) (n : ℕ) : ℚ := (pyRoundInt (q * 10 ^ n) : ℚ) / 10 ^ n

/-- The per-subject accumulation step of `calculate_session_statistics`
(`src/analysis/metrics.py` lines 459-466): create the subject's entry
when absent, then add the session's correct and total counts.  Entries
are `(subject, correct, total)`. -/
def upsertStats : List (String × ℚ × ℚ) → String → ℚ → ℚ → List (String × ℚ × ℚ)
  | [], subj, c, t => [(subj, c, t)]
  | (k, c0, t0) :: rest, subj, c, t =>
      if k = subj then (k, c0 + c, t0 + t) :: rest
      else (k, c0, t0) :: upsertStats rest subj c t

/-- The `subject_stats` dict of `calculate_session_statistics` after the
accumulation loop, in insertion order. -/
def subjectStatsOf (sessions : List Session) : List (String × ℚ × ℚ) :=
  sessions.foldl (fun acc s =>
    upsertStats acc (s.subject.getD "Unknown")
      (s.correct_count.getD 0) (s.total_questions.getD 0)) []

/-- One iteration of the best/worst-subject loop of
`calculate_session_statistics` (`src/analysis/metrics.py` lines 468-481)
on the state `(best_acc, best_subject, worst_acc, worst_subject)`:
subjects with no questions are skipped, the best subject is updated on a
strictly larger accuracy, the worst on a strictly smaller one. -/
def selStep : (ℚ × String × ℚ × String) → (String × ℚ × ℚ) →
    ℚ × String × ℚ × String
  | (bacc, bsub, wacc, wsub), (subj, c, t) =>
      if 0 < t then
        ((if bacc < c / t * 100 then c / t * 100 else bacc),
         (if bacc < c / t * 100 then subj else bsub),
         (if c / t * 100 < wacc then c / t * 100 else wacc),
         (if c / t * 100 < wacc then subj else wsub))
      else (bacc, bsub, wacc, wsub)

/-- The best/worst-subject loop of `calculate_session_statistics`,
starting from `best_acc = 0`, `best_subject = "—"`, `worst_acc = 100`,
`worst_subject = "—"`. -/
def selFold (stats : List (String × ℚ × ℚ)) : ℚ × String × ℚ × String :=
  stats.foldl selStep (0, "—", 100, "—")

/-- The summary returned by `calculate_session_statistics`. -/
structure SessionStats where
  total_sessions : ℕ
  total_questions : ℚ
  avg_accuracy : ℚ
  avg_pace : ℚ
  total_study_time : ℚ
  best_subject : String
  improvement_needed : String
deriving DecidableEq

/-- Embedding of `calculate_session_statistics`,
`src/analysis/metrics.py` lines 427-491.  The three totals are written
out at each use instead of let-bound; they are the sums the source binds
to `total_questions`, `total_correct` and `total_time`. -/
def calculate_session_statistics (sessions : List Session) : SessionStats :=
  if sessions = [] then
    { total_sessions := 0, total_questions := 0, avg_accuracy := 0,
      avg_pace := 0, total_study_time := 0, best_subject := "—",
      improvement_needed := "—" }
  else
    { total_sessions := sessions.length
      total_questions := (sessions.map (fun s => s.total_questions.getD 0)).sum
      avg_accuracy := pyRound
        (if 0 < (sessions.map (fun s => s.total_questions.getD 0)).sum then
          (sessions.map (fun s => s.correct_count.getD 0)).sum
            / (sessions.map (fun s => s.total_questions.getD 0)).sum * 100
         else 0) 1
      avg_pace := pyRound
        (if 0 < (sessions.map (fun s => s.total_questions.getD 0)).sum then
          (sessions.map (fun s => s.duration_minutes.getD 0)).sum
            / (sessions.map (fun s => s.total_questions.getD 0)).sum
         else 0) 2
      total_study_time := pyRound
        ((sessions.map (fun s => s.duration_minutes.getD 0)).sum / 60) 1
      best_subject := (selFold (subjectStatsOf sessions)).2.1
      improvement_needed :=
        if (selFold (subjectStatsOf sessions)).2.2.1 < 60 then
          (selFold (subjectStatsOf sessions)).2.2.2
        else "—" }

/-- The two-session input of the specification's worked example. -/
def twoSessions : List Session :=
  [{ total_questions := some 10, correct_count := some 7,
     duration_minutes := some 20 },
   { total_questions := some 10, correct_count := some 3,
     duration_minutes := some 30 }]

/-- A single session of subject `"Math"` with 7 of 10 correct. -/
def mathSession : Session :=
  { subject := some "Math", total_questions := some 10,
    correct_count := some 7, duration_minutes := some 20 }

/-- A single session of subject `"Math"` with 0 of 5 correct. -/
def zeroMathSession : Session :=
  { subject := some "Math", total_questions := some 5,
    correct_count := some 0, duration_minutes := some 10 }

/-- Python truthiness of an optional string: `None` and `""` are falsy. -/
def truthyStr : Option String → Bool
  | none => false
  | some s => s ≠ ""

/-- Python `grouped.setdefault(subject, []).append(error)` behaviour of
`get_mock_exam_error_summary`: create the subject's list when absent,
then append the error, preserving insertion order. -/
def appendGroup : List (PyVal × List ErrorRec) → PyVal → ErrorRec →
    List (PyVal × List ErrorRec)
  | [], k, e => [(k, [e])]
  | (k1, es) :: rest, k, e =>
      if k1 = k then (k1, es ++ [e]) :: rest
      else (k1, es) :: appendGroup rest k e

/-- Embedding of `get_mock_exam_error_summary`,
`src/analysis/metrics.py` lines 783-821: group errors by subject for a
given mock exam, taking errors explicitly linked via `mock_exam_id` and,
as a fallback, errors with a falsy `mock_exam_id` whose date equals the
(truthy) exam date. -/
def get_mock_exam_error_summary (errors : List ErrorRec)
    (mock_exam_id : String) (exam_date : Option String) :
    List (PyVal × List ErrorRec) :=
  errors.foldl (fun grouped e =>
    if e.mock_exam_id = some mock_exam_id then
      appendGroup grouped (e.subject.getD (PyVal.vstr "Unknown")) e
    else if truthyStr e.mock_exam_id = false ∧ truthyStr exam_date = true ∧
        e.date = exam_date then
      appendGroup grouped (e.subject.getD (PyVal.vstr "Unknown")) e
    else grouped) []

/-- An error record explicitly linked to a different exam but sharing
the summary date — the empty-id edge case of C7. -/
def emptyIdError : ErrorRec :=
  { subject := some (PyVal.vstr "Math"), date := some "01-01-2024",
    mock_exam_id := some "" }

/-- An error record explicitly linked to exam `"exam-B"`. -/
def otherExamError : ErrorRec :=
  { subject := some (PyVal.vstr "Math"), date := some "01-01-2024",
    mock_exam_id := some "exam-B" }

/-- An error record with no explicit exam link, dated `01-01-2024`. -/
def unlinkedError : ErrorRec := { date := some "01-01-2024" }

/-- A mock exam record; only the `date` key is read by the heatmap. -/
structure MockExam where
  date : Option String := none
deriving DecidableEq

/-- One day's accumulator of the heatmap, as seeded and updated by
`get_activity_heatmap_data`.  Calendar dates are modelled as integers
(days); the Python entry's display `date` string renders this day. -/
structure DayEntry where
  date : ℤ
  questions_answered : ℚ
  errors_logged : ℕ
  exams_taken : ℕ
  study_time : ℚ
deriving DecidableEq

/-- One output row of `get_activity_heatmap_data`, after the intensity
and `date_key` are attached.  `date_key` is the same calendar day that
Python renders as `YYYY-MM-DD`. -/
structure HeatDay where
  date : ℤ
  questions_answered : ℚ
  errors_logged : ℕ
  exams_taken : ℕ
  study_time : ℚ
  intensity : ℕ
  date_key : ℤ
deriving DecidableEq

/-- Python `activity_map[date_key] = f(activity_map[date_key])` on the
insertion-ordered dict, modelled on the association list. -/
def updAt : List (ℤ × DayEntry) → ℤ → (DayEntry → DayEntry) →
    List (ℤ × DayEntry)
  | [], _, _ => []
  | (k1, e) :: rest, k, f =>
      if k1 = k then (k1, f e) :: rest else (k1, e) :: updAt rest k f

/-- Insertion step of sorting the map keys ascending, modelling
`sorted(activity_map.keys())` (`YYYY-MM-DD` strings sort as dates). -/
def insertByKey (x : ℤ × DayEntry) : List (ℤ × DayEntry) →
    List (ℤ × DayEntry)
  | [] => [x]
  | y :: ys => if x.1 ≤ y.1 then x :: y :: ys else y :: insertByKey x ys

/-- Insertion sort of the day map by ascending key. -/
def sortByKey (l : List (ℤ × DayEntry)) : List (ℤ × DayEntry) :=
  l.foldr insertByKey []

/-- The GitHub-style 0-4 intensity bucket of
`get_activity_heatmap_data` (`src/analysis/metrics.py` lines 689-699). -/
def heatmapIntensity (q : ℚ) : ℕ :=
  if q = 0 then 0
  else if q < 10 then 1
  else if q < 30 then 2
  else if q < 50 then 3
  else 4

/-- Embedding of `get_activity_heatmap_data`,
`src/analysis/metrics.py` lines 621-704.  `today` models `date.today()`
as a day number, `pd` models `parse_date_str` composed with `.date()`;
the seed covers every day from `today - days` to `today` inclusive, the
three loops accumulate in-range sessions, errors and mock exams, and the
final pass walks the keys in sorted order attaching the intensity. -/
def get_activity_heatmap_data (pd : String → Option ℤ) (today : ℤ)
    (sessions : List Session) (errors : List ErrorRec)
    (mock_exams : List MockExam) (days : ℕ) : List HeatDay :=
  let start := today - days
  let seed : List (ℤ × DayEntry) := (List.range (days + 1)).map
    (fun i : ℕ =>
      (start + (i : ℤ), (⟨start + (i : ℤ), 0, 0, 0, 0⟩ : DayEntry)))
  let m1 := sessions.foldl (fun m s =>
    match pd (s.date.getD "") with
    | some dday =>
        if start ≤ dday ∧ dday ≤ today then
          updAt m dday (fun e =>
            { e with
              questions_answered :=
                e.questions_answered + s.total_questions.getD 0,
              study_time := e.study_time + s.duration_minutes.getD 0 })
        else m
    | none => m) seed
  let m2 := errors.foldl (fun m er =>
    match pd (er.date.getD "") with
    | some dday =>
        if start ≤ dday ∧ dday ≤ today then
          updAt m dday (fun e =>
            { e with errors_logged := e.errors_logged + 1 })
        else m
    | none => m) m1
  let m3 := mock_exams.foldl (fun m ex =>
    match pd (ex.date.getD "") with
    | some dday =>
        if start ≤ dday ∧ dday ≤ today then
          updAt m dday (fun e =>
            { e with exams_taken := e.exams_taken + 1 })
        else m
    | none => m) m2
  (sortByKey m3).map (fun ke =>
    ⟨ke.2.date, ke.2.questions_answered, ke.2.errors_logged,
     ke.2.exams_taken, ke.2.study_time,
     heatmapIntensity ke.2.questions_answered, ke.1⟩)

end ErrorAutopsy

namespace ErrorAutopsy

/-- C1 (amended): for every pace `p ≥ 0` and benchmark `b ≤ 0`,
`PaceZone.classify` never divides and returns `"Too Slow"` — except at the
single point `p = 0`, `b = 0`, where the second guard `0 ≤ 0 * 1.2`
succeeds and the result is `"Optimal"`. -/
theorem classify_nonpos_benchmark (p b : ℚ) (hp : 0 ≤ p) (hb : b ≤ 0)
    (hne : ¬(p = 0 ∧ b = 0)) : PaceZone.classify p b = "Too Slow" := by
  unfold PaceZone.classify PaceZone.RUSHING_MULTIPLIER PaceZone.OPTIMAL_MAX_MULTIPLIER
  split_ifs with h1 h2
  · exfalso
    nlinarith
  · exfalso
    have hp0 : p = 0 := by nlinarith
    have hb0 : b = 0 := by nlinarith
    exact hne ⟨hp0, hb0⟩
  · rfl

/-- Witness for `classify_nonpos_benchmark` at `p = 1`, `b = 0`. -/
theorem classify_nonpos_benchmark_witness :
    (0 : ℚ) ≤ 1 ∧ (0 : ℚ) ≤ 0 ∧ PaceZone.classify 1 0 = "Too Slow" :=
  ⟨by norm_num, le_refl 0, classify_nonpos_benchmark 1 0 (by norm_num) (le_refl 0)
    (by norm_num)⟩

/-- Counterexample to C1 as stated: at `p = 0`, `b = 0` the classification
is `"Optimal"`, not `"Too Slow"`. -/
theorem classify_zero_zero_optimal :
    PaceZone.classify 0 0 = "Optimal" ∧ PaceZone.classify 0 0 ≠ "Too Slow" := by
  have h : PaceZone.classify 0 0 = "Optimal" := by
    norm_num [PaceZone.classify, PaceZone.RUSHING_MULTIPLIER,
      PaceZone.OPTIMAL_MAX_MULTIPLIER]
  refine ⟨h, ?_⟩
  rw [h]
  decide

/-- Case analysis of `PaceZone.classify` along its two guards. -/
theorem classify_cases (p b : ℚ) :
    (p < b * (1/2) ∧ PaceZone.classify p b = "Rushing") ∨
    (b * (1/2) ≤ p ∧ p ≤ b * (6/5) ∧ PaceZone.classify p b = "Optimal") ∨
    (b * (6/5) < p ∧ PaceZone.classify p b = "Too Slow") := by
  unfold PaceZone.classify PaceZone.RUSHING_MULTIPLIER PaceZone.OPTIMAL_MAX_MULTIPLIER
  split_ifs with h1 h2
  · exact Or.inl ⟨h1, rfl⟩
  · exact Or.inr (Or.inl ⟨not_lt.mp h1, h2, rfl⟩)
  · exact Or.inr (Or.inr ⟨not_le.mp h2, rfl⟩)

/-- C5: for every benchmark `b > 0`, `PaceZone.classify` returns
`"Rushing"` iff `pace < 0.5*b`, `"Optimal"` iff `0.5*b ≤ pace ≤ 1.2*b`,
`"Too Slow"` iff `pace > 1.2*b`, and both boundary points classify as
`"Optimal"`. -/
theorem classify_pace_zones (b : ℚ) (hb : 0 < b) (p : ℚ) :
    (PaceZone.classify p b = "Rushing" ↔ p < 1/2 * b) ∧
    (PaceZone.classify p b = "Optimal" ↔ (1/2 * b ≤ p ∧ p ≤ 6/5 * b)) ∧
    (PaceZone.classify p b = "Too Slow" ↔ 6/5 * b < p) ∧
    PaceZone.classify (1/2 * b) b = "Optimal" ∧
    PaceZone.classify (6/5 * b) b = "Optimal" := by
  have hiff : ∀ q : ℚ,
      (PaceZone.classify q b = "Rushing" ↔ q < 1/2 * b) ∧
      (PaceZone.classify q b = "Optimal" ↔ (1/2 * b ≤ q ∧ q ≤ 6/5 * b)) ∧
      (PaceZone.classify q b = "Too Slow" ↔ 6/5 * b < q) := by
    intro q
    rcases classify_cases q b with ⟨hq, hc⟩ | ⟨hq1, hq2, hc⟩ | ⟨hq, hc⟩ <;>
      rw [hc] <;>
      refine ⟨⟨fun h => ?_, fun h => ?_⟩, ⟨fun h => ?_, fun h => ?_⟩,
        fun h => ?_, fun h => ?_⟩ <;>
      first
      | rfl
      | linarith
      | (exact absurd h (by decide))
      | (exact ⟨by linarith, by linarith⟩)
  refine ⟨(hiff p).1, (hiff p).2.1, (hiff p).2.2, ?_, ?_⟩
  · exact ((hiff (1/2 * b)).2.1).mpr ⟨le_refl _, by linarith⟩
  · exact ((hiff (6/5 * b)).2.1).mpr ⟨by linarith, le_refl _⟩

/-- Witness for `classify_pace_zones` at `b = 2`, `p = 0`. -/
theorem classify_pace_zones_witness : PaceZone.classify 0 2 = "Rushing" :=
  ((classify_pace_zones 2 (by norm_num) 0).1).mpr (by norm_num)

/-- C6: the implementation's combined performance-zone classification
agrees with the specification's decision table on every input, and in
particular on the spec's sample points, including Developing accuracy
with Rushing or Too Slow pace falling through to "Needs Improvement". -/
theorem performance_zone_matches_table :
    (∀ (pz : String) (acc : ℚ),
        classify_performance_zone pz acc = spec_performance_zone_table pz acc) ∧
    classify_performance_zone "Rushing" 85 = "Rushing & Accurate (Risky)" ∧
    classify_performance_zone "Optimal" 50 = "Needs Improvement" ∧
    classify_performance_zone "Rushing" 70 = "Needs Improvement" ∧
    classify_performance_zone "Too Slow" 70 = "Needs Improvement" := by
  refine ⟨fun pz acc => ?_, by decide, by decide, by decide, by decide⟩
  unfold classify_performance_zone spec_performance_zone_table
    AccuracyZone.MASTERY_THRESHOLD AccuracyZone.DEVELOPING_THRESHOLD
  rfl

/-- The head of a `dropWhile` result does not satisfy the predicate. -/
theorem dropWhile_head_false (p : Char → Bool) :
    ∀ (l : List Char) (a : Char) (t : List Char),
      l.dropWhile p = a :: t → p a = false := by
  intro l
  induction l with
  | nil => intro a t h; simp [List.dropWhile] at h
  | cons b bs ih =>
      intro a t h
      by_cases hb : p b
      · rw [List.dropWhile_cons_of_pos hb] at h
        exact ih a t h
      · rw [List.dropWhile_cons_of_neg hb] at h
        injection h with h1 h2
        rw [h1] at hb
        cases hpb : p a with
        | false => rfl
        | true => exact absurd hpb hb

/-- A nonempty stripped character list contains a non-whitespace
character, so it is not all-whitespace. -/
theorem stripList_not_blank (l : List Char) (h : stripList l ≠ []) :
    (stripList l).all pyIsSpace = false := by
  rcases hme : (l.dropWhile pyIsSpace).reverse.dropWhile pyIsSpace with _ | ⟨a, t⟩
  · exfalso
    apply h
    unfold stripList
    rw [hme]
    rfl
  · have ha : pyIsSpace a = false := dropWhile_head_false _ _ _ _ hme
    have hres : stripList l = (a :: t).reverse := by unfold stripList; rw [hme]
    rw [hres]
    have hnot : ¬((a :: t).reverse.all pyIsSpace = true) := by
      rw [List.all_eq_true]
      intro hall
      have hmem := hall a (by simp)
      rw [ha] at hmem
      simp at hmem
    cases hb : (a :: t).reverse.all pyIsSpace
    · rfl
    · exact absurd hb hnot

/-- If the strip of a string is a nonempty string, the stripped list is
nonempty. -/
theorem pyStrip_ne_empty {s : String} (h : pyStrip s ≠ "") :
    stripList s.data ≠ [] := by
  intro he
  apply h
  unfold pyStrip
  rw [he]

/-- The normalized key of `count_subjects`/`count_topics` is never empty
and never all-whitespace. -/
theorem normalizeKey_not_blank (raw : PyVal) :
    ((normalizeKey raw).data.all pyIsSpace) = false := by
  rcases raw with s | _ | n
  · show (if pyStrip s = "" then ("Unknown" : String)
      else pyStrip s).data.all pyIsSpace = false
    by_cases hk : pyStrip s = ""
    · rw [if_pos hk]
      decide
    · rw [if_neg hk]
      exact stripList_not_blank s.data (pyStrip_ne_empty hk)
  · show ("Unknown".data.all pyIsSpace) = false
    decide
  · show ("Unknown".data.all pyIsSpace) = false
    decide

/-- Keys of `bump l k` are keys of `l` or the new key `k`. -/
theorem bump_key_prop {α : Type} [DecidableEq α] (P : α → Prop) :
    ∀ (l : List (α × ℕ)) (k : α), (∀ k2 ∈ l.map Prod.fst, P k2) → P k →
      ∀ k2 ∈ (bump l k).map Prod.fst, P k2 := by
  intro l
  induction l with
  | nil =>
      intro k _ hk k2 hk2
      simp [bump] at hk2
      rw [hk2]
      exact hk
  | cons p rest ih =>
      intro k h hk k2 hk2
      obtain ⟨k1, v⟩ := p
      by_cases hkk : k1 = k
      · simp only [bump, if_pos hkk, List.map_cons, List.mem_cons] at hk2
        rcases hk2 with hk2 | hk2
        · exact hk2 ▸ h k1 (by simp)
        · exact h k2 (by simp [hk2])
      · simp only [bump, if_neg hkk, List.map_cons, List.mem_cons] at hk2
        rcases hk2 with hk2 | hk2
        · exact hk2 ▸ h k1 (by simp)
        · refine ih k (fun k3 hk3 => h k3 ?_) hk k2 hk2
          rw [List.map_cons]
          exact List.mem_cons_of_mem _ hk3

/-- A property holding for every generated key holds for every key of the
counting fold. -/
theorem foldl_bump_key_prop {α R : Type} [DecidableEq α] (P : α → Prop)
    (f : R → α) (hf : ∀ r, P (f r)) :
    ∀ (data : List R) (acc : List (α × ℕ)), (∀ k ∈ acc.map Prod.fst, P k) →
      ∀ k ∈ (data.foldl (fun a r => bump a (f r)) acc).map Prod.fst, P k := by
  intro data
  induction data with
  | nil => intro acc hacc; simpa using hacc
  | cons r rest ih =>
      intro acc hacc
      rw [List.foldl_cons]
      exact ih _ (bump_key_prop P acc (f r) hacc (hf r))

/-- C3 (amended): `count_subjects` and `count_topics` substitute
`"Unknown"` for missing, non-string, or blank-after-trimming values, so
none of their keys is an empty or whitespace-only string.
`count_error_types` substitutes `"Unknown"` only for a missing key and
performs no strip or blank check (see the counterexample). -/
theorem count_keys_never_blank (data : List ErrorRec) :
    (∀ k ∈ (count_subjects data).map Prod.fst, (k.data.all pyIsSpace) = false) ∧
    (∀ k ∈ (count_topics data).map Prod.fst, (k.data.all pyIsSpace) = false) := by
  constructor <;> intro k hk
  · unfold count_subjects at hk
    by_cases hd : data = []
    · rw [if_pos hd] at hk
      simp at hk
    · rw [if_neg hd] at hk
      exact foldl_bump_key_prop (fun k2 => (k2.data.all pyIsSpace) = false)
        subjectKey (fun r => by unfold subjectKey; exact normalizeKey_not_blank _)
        data [] (by simp) k hk
  · unfold count_topics at hk
    by_cases hd : data = []
    · rw [if_pos hd] at hk
      simp at hk
    · rw [if_neg hd] at hk
      exact foldl_bump_key_prop (fun k2 => (k2.data.all pyIsSpace) = false)
        topicKey (fun r => by unfold topicKey; exact normalizeKey_not_blank _)
        data [] (by simp) k hk

/-- Witness for `count_keys_never_blank` on a one-record list whose
subject is `" a "`: the produced key `"a"` is not blank. -/
theorem count_keys_never_blank_witness :
    ("a".data.all pyIsSpace) = false :=
  (count_keys_never_blank [{ subject := some (PyVal.vstr " a ") }]).1 "a"
    (by decide)

/-- Counterexample to C3 as stated: `count_error_types` keeps a
whitespace-only type value `"  "` as a key instead of substituting
`"Unknown"`, so a returned key is blank after trimming. -/
theorem count_error_types_blank_key :
    count_error_types [{ etype := some (PyVal.vstr "  ") }]
      = [(PyVal.vstr "  ", 1)] ∧ ("  ".data.all pyIsSpace) = true := by
  constructor
  · decide
  · decide

/-- C9: the range filter is idempotent — for every parse function, month
start, reference time, record list and `months` value, filtering twice
equals filtering once. -/
theorem filter_by_range_idempotent (pd : String → Option ℚ)
    (monthStart : ℚ → ℚ) (now : ℚ) (data : List ErrorRec)
    (months : Option ℤ) :
    filter_data_by_range pd monthStart now
        (filter_data_by_range pd monthStart now data months) months
      = filter_data_by_range pd monthStart now data months := by
  cases months with
  | none =>
      by_cases hd : data = []
      · subst hd
        simp [filter_data_by_range]
      · have h1 : filter_data_by_range pd monthStart now data none = data := by
          unfold filter_data_by_range
          rw [if_neg hd]
        rw [h1]
        exact h1
  | some m =>
      by_cases hd : data = []
      · subst hd
        simp [filter_data_by_range]
      · have h1 : filter_data_by_range pd monthStart now data (some m)
            = data.filter (fun item => keepInRange pd
                (if m = 0 then monthStart now
                 else now - ((m * DAYS_PER_MONTH : ℤ) : ℚ)) item) := by
          unfold filter_data_by_range
          rw [if_neg hd]
        rw [h1]
        by_cases he : data.filter (fun item => keepInRange pd
            (if m = 0 then monthStart now
             else now - ((m * DAYS_PER_MONTH : ℤ) : ℚ)) item) = []
        · rw [he]
          simp [filter_data_by_range]
        · unfold filter_data_by_range
          rw [if_neg he]
          exact List.filter_eq_self.mpr (fun a ha => (List.mem_filter.mp ha).2)

/-- C10: with `months = None` the filter returns the input unchanged, so
records with missing, empty, or unparsable dates are retained; with any
numeric `months` such records are dropped. -/
theorem filter_none_keeps_numeric_drops :
    (∀ (pd : String → Option ℚ) (monthStart : ℚ → ℚ) (now : ℚ)
        (data : List ErrorRec),
        filter_data_by_range pd monthStart now data none = data) ∧
    (∀ (pd : String → Option ℚ) (monthStart : ℚ → ℚ) (now : ℚ)
        (data : List ErrorRec) (m : ℤ) (x : ErrorRec),
        (x.date = none ∨ x.date = some "" ∨
          ∃ s, x.date = some s ∧ pd s = none) →
        x ∉ filter_data_by_range pd monthStart now data (some m)) := by
  constructor
  · intro pd monthStart now data
    by_cases hd : data = []
    · subst hd
      simp [filter_data_by_range]
    · unfold filter_data_by_range
      rw [if_neg hd]
  · intro pd monthStart now data m x hbad hmem
    unfold filter_data_by_range at hmem
    by_cases hd : data = []
    · rw [if_pos hd] at hmem
      exact absurd hmem (List.not_mem_nil x)
    · rw [if_neg hd] at hmem
      have hkeep := (List.mem_filter.mp hmem).2
      rcases hbad with h | h | ⟨s, hs, hpd⟩
      · simp [keepInRange, h] at hkeep
      · simp [keepInRange, h] at hkeep
      · simp [keepInRange, hs, hpd] at hkeep

/-- Witness for `filter_none_keeps_numeric_drops`: a record with a
missing date is dropped by a one-month window. -/
theorem filter_none_keeps_numeric_drops_witness :
    ({ date := none } : ErrorRec) ∉
      filter_data_by_range (fun _ => none) id 0 [{ date := none }] (some 1) :=
  filter_none_keeps_numeric_drops.2 (fun _ => none) id 0 [{ date := none }] 1
    { date := none } (Or.inl rfl)

/-- C2 (amended): on the spec's two-session example the statistics are
`avg_accuracy = 50.0`, `avg_pace = 2.5`, and `total_study_time = 0.8` —
the study time is `total_minutes/60` rounded to one decimal place, not
the unrounded `50/60 = 0.8333...`. -/
theorem session_statistics_two_sessions :
    (calculate_session_statistics twoSessions).avg_accuracy = 50 ∧
    (calculate_session_statistics twoSessions).avg_pace = 5/2 ∧
    (calculate_session_statistics twoSessions).total_study_time = 4/5 := by
  have hne : twoSessions ≠ [] := by simp [twoSessions]
  refine ⟨?_, ?_, ?_⟩ <;>
    (unfold calculate_session_statistics
     rw [if_neg hne]
     norm_num [twoSessions, pyRound, pyRoundInt])

/-- Counterexample to C2 as stated: `total_study_time` on the two-session
example is `0.8`, which is not `50/60`; the source rounds
`total_time / 60` to one decimal place. -/
theorem study_time_is_rounded :
    (calculate_session_statistics twoSessions).total_study_time = 4/5 ∧
    (4/5 : ℚ) ≠ 50/60 := by
  have hne : twoSessions ≠ [] := by simp [twoSessions]
  constructor
  · unfold calculate_session_statistics
    rw [if_neg hne]
    norm_num [twoSessions, pyRound, pyRoundInt]
  · norm_num

/-- One step of the best/worst loop: the best accuracy never decreases,
the best pair is either kept or set from the processed subject, and a
processed subject with questions never beats the new best accuracy. -/
theorem selStep_cases (st : ℚ × String × ℚ × String) (q : String × ℚ × ℚ) :
    ((selStep st q).1 = st.1 ∧ (selStep st q).2.1 = st.2.1 ∨
      0 < q.2.2 ∧ (selStep st q).1 = q.2.1 / q.2.2 * 100 ∧
        (selStep st q).2.1 = q.1) ∧
    st.1 ≤ (selStep st q).1 ∧
    (0 < q.2.2 → q.2.1 / q.2.2 * 100 ≤ (selStep st q).1) := by
  obtain ⟨bacc, bsub, wacc, wsub⟩ := st
  obtain ⟨subj, c, t⟩ := q
  simp only [selStep]
  split_ifs with ht h1 h2
  · exact ⟨Or.inr ⟨ht, rfl, rfl⟩, le_of_lt h1, fun _ => le_refl _⟩
  · exact ⟨Or.inr ⟨ht, rfl, rfl⟩, le_of_lt h1, fun _ => le_refl _⟩
  · exact ⟨Or.inl ⟨rfl, rfl⟩, le_refl _, fun _ => not_lt.mp h1⟩
  · exact ⟨Or.inl ⟨rfl, rfl⟩, le_refl _, fun _ => not_lt.mp h1⟩
  · exact ⟨Or.inl ⟨rfl, rfl⟩, le_refl _, fun h => absurd h ht⟩

/-- Invariant of the best/worst loop over a whole stats list: the final
best accuracy dominates the initial one and every processed accuracy,
and the final best pair is the initial one or comes from a processed
subject with questions. -/
theorem selFold_best_inv (l : List (String × ℚ × ℚ)) :
    ∀ st : ℚ × String × ℚ × String,
      st.1 ≤ (l.foldl selStep st).1 ∧
      ((l.foldl selStep st).1 = st.1 ∧ (l.foldl selStep st).2.1 = st.2.1 ∨
        ∃ p ∈ l, 0 < p.2.2 ∧ (l.foldl selStep st).1 = p.2.1 / p.2.2 * 100 ∧
          (l.foldl selStep st).2.1 = p.1) ∧
      (∀ p ∈ l, 0 < p.2.2 → p.2.1 / p.2.2 * 100 ≤ (l.foldl selStep st).1) := by
  induction l with
  | nil => intro st; exact ⟨le_refl _, Or.inl ⟨rfl, rfl⟩, by simp⟩
  | cons q rest ih =>
      intro st
      rw [List.foldl_cons]
      obtain ⟨hcase, hle, hmax⟩ := selStep_cases st q
      obtain ⟨ih1, ih2, ih3⟩ := ih (selStep st q)
      refine ⟨le_trans hle ih1, ?_, ?_⟩
      · rcases ih2 with ⟨he1, he2⟩ | ⟨p, hp, hpt, hpe, hps⟩
        · rcases hcase with ⟨hc1, hc2⟩ | ⟨hqt, hq1, hq2⟩
          · exact Or.inl ⟨he1.trans hc1, he2.trans hc2⟩
          · exact Or.inr ⟨q, List.mem_cons_self _ _, hqt,
              he1.trans hq1, he2.trans hq2⟩
        · exact Or.inr ⟨p, List.mem_cons_of_mem _ hp, hpt, hpe, hps⟩
      · intro p hp hpt
        rcases List.mem_cons.mp hp with rfl | hp2
        · exact le_trans (hmax hpt) ih1
        · exact ih3 p hp2 hpt

/-- C4 (amended): for every non-empty session list in which some subject
with at least one question has positive aggregated accuracy,
`best_subject` is such a subject and its aggregated accuracy
(`correct/total*100`) is maximal among subjects with at least one
question.  When every such accuracy is `0` the sentinel `"—"` is kept
instead (see the counterexample), because the loop updates only on a
strictly larger accuracy than the initial `best_acc = 0`. -/
theorem best_subject_max_accuracy (sessions : List Session)
    (hne : sessions ≠ [])
    (hpos : ∃ p ∈ subjectStatsOf sessions,
      0 < p.2.2 ∧ 0 < p.2.1 / p.2.2 * 100) :
    ∃ p ∈ subjectStatsOf sessions, 0 < p.2.2 ∧
      (calculate_session_statistics sessions).best_subject = p.1 ∧
      ∀ q ∈ subjectStatsOf sessions, 0 < q.2.2 →
        q.2.1 / q.2.2 * 100 ≤ p.2.1 / p.2.2 * 100 := by
  obtain ⟨p0, hp0mem, hp0t, hp0pos⟩ := hpos
  obtain ⟨inv1, inv2, inv3⟩ :=
    selFold_best_inv (subjectStatsOf sessions) (0, "—", 100, "—")
  have hfold : selFold (subjectStatsOf sessions)
      = (subjectStatsOf sessions).foldl selStep (0, "—", 100, "—") := rfl
  have hpos2 : 0 < ((subjectStatsOf sessions).foldl selStep
      (0, "—", 100, "—")).1 :=
    lt_of_lt_of_le hp0pos (inv3 p0 hp0mem hp0t)
  rcases inv2 with ⟨he1, he2⟩ | ⟨p, hpmem, hpt, hpe, hps⟩
  · rw [he1] at hpos2
    exact absurd hpos2 (lt_irrefl 0)
  · refine ⟨p, hpmem, hpt, ?_, ?_⟩
    · have hbs : (calculate_session_statistics sessions).best_subject
          = (selFold (subjectStatsOf sessions)).2.1 := by
        unfold calculate_session_statistics
        rw [if_neg hne]
      rw [hbs, hfold]
      exact hps
    · intro q hq hqt
      calc q.2.1 / q.2.2 * 100
          ≤ ((subjectStatsOf sessions).foldl selStep (0, "—", 100, "—")).1 :=
            inv3 q hq hqt
        _ = p.2.1 / p.2.2 * 100 := hpe

/-- Witness for `best_subject_max_accuracy` on one session of subject
`"Math"` with 7 of 10 correct. -/
theorem best_subject_max_accuracy_witness :
    ∃ p ∈ subjectStatsOf [mathSession], 0 < p.2.2 ∧
      (calculate_session_statistics [mathSession]).best_subject = p.1 ∧
      ∀ q ∈ subjectStatsOf [mathSession], 0 < q.2.2 →
        q.2.1 / q.2.2 * 100 ≤ p.2.1 / p.2.2 * 100 :=
  best_subject_max_accuracy _ (by simp)
    ⟨("Math", 7, 10), by simp [subjectStatsOf, upsertStats, mathSession],
      by norm_num, by norm_num⟩

/-- Counterexample to C4 as stated: one session of subject `"Math"` with
5 questions and 0 correct — the subject has questions, but every
accuracy is 0, so `best_subject` stays the `"—"` sentinel. -/
theorem best_subject_all_zero_sentinel :
    (calculate_session_statistics [zeroMathSession]).best_subject = "—" ∧
    ("Math", (0 : ℚ), (5 : ℚ)) ∈ subjectStatsOf [zeroMathSession] ∧
    (0 : ℚ) < 5 := by
  refine ⟨?_, by simp [subjectStatsOf, upsertStats, zeroMathSession],
    by norm_num⟩
  have hne : [zeroMathSession] ≠ [] := by simp
  unfold calculate_session_statistics
  rw [if_neg hne]
  norm_num [subjectStatsOf, upsertStats, zeroMathSession, selFold, selStep]

/-- Appending an error to a group map cannot introduce a different
record into any group. -/
theorem appendGroup_not_mem (x : ErrorRec) :
    ∀ (acc : List (PyVal × List ErrorRec)) (k : PyVal) (e : ErrorRec),
      (∀ g ∈ acc, x ∉ g.2) → x ≠ e →
      ∀ g ∈ appendGroup acc k e, x ∉ g.2 := by
  intro acc
  induction acc with
  | nil =>
      intro k e hacc hne g hg
      simp only [appendGroup, List.mem_singleton] at hg
      rw [hg]
      simp only [List.mem_singleton]
      exact hne
  | cons p rest ih =>
      intro k e hacc hne g hg
      obtain ⟨k1, es⟩ := p
      by_cases hk : k1 = k
      · simp only [appendGroup, if_pos hk] at hg
        rcases List.mem_cons.mp hg with rfl | hg2
        · intro hx
          rcases List.mem_append.mp hx with hx1 | hx2
          · exact hacc (k1, es) (List.mem_cons_self _ _) hx1
          · rw [List.mem_singleton] at hx2
            exact hne hx2
        · exact hacc g (List.mem_cons_of_mem _ hg2)
      · simp only [appendGroup, if_neg hk] at hg
        rcases List.mem_cons.mp hg with rfl | hg2
        · exact hacc (k1, es) (List.mem_cons_self _ _)
        · exact ih k e (fun g2 hg2b => hacc g2 (List.mem_cons_of_mem _ hg2b))
            hne g hg2

/-- C7 (amended): an error whose `mock_exam_id` is truthy (non-null and
non-empty) and different from the requested exam id appears in no group
of `get_mock_exam_error_summary`, whatever the exam date — the same-date
fallback applies only to errors with a falsy link.  (As stated the claim
fails for the non-null empty-string id `""`, which Python treats as
falsy; see the counterexample.) -/
theorem summary_excludes_other_exam_errors (errors : List ErrorRec)
    (A : String) (d : Option String) (x : ErrorRec)
    (hx1 : truthyStr x.mock_exam_id = true)
    (hx2 : x.mock_exam_id ≠ some A) :
    ∀ g ∈ get_mock_exam_error_summary errors A d, x ∉ g.2 := by
  unfold get_mock_exam_error_summary
  have key : ∀ (es : List ErrorRec) (acc : List (PyVal × List ErrorRec)),
      (∀ g ∈ acc, x ∉ g.2) →
      ∀ g ∈ es.foldl (fun grouped e =>
          if e.mock_exam_id = some A then
            appendGroup grouped (e.subject.getD (PyVal.vstr "Unknown")) e
          else if truthyStr e.mock_exam_id = false ∧ truthyStr d = true ∧
              e.date = d then
            appendGroup grouped (e.subject.getD (PyVal.vstr "Unknown")) e
          else grouped) acc, x ∉ g.2 := by
    intro es
    induction es with
    | nil => intro acc hacc; simpa using hacc
    | cons e rest ih =>
        intro acc hacc
        rw [List.foldl_cons]
        apply ih
        by_cases h1 : e.mock_exam_id = some A
        · rw [if_pos h1]
          refine appendGroup_not_mem x acc _ e hacc (fun hxe => ?_)
          rw [hxe] at hx2
          exact hx2 h1
        · rw [if_neg h1]
          by_cases h2 : truthyStr e.mock_exam_id = false ∧
              truthyStr d = true ∧ e.date = d
          · rw [if_pos h2]
            refine appendGroup_not_mem x acc _ e hacc (fun hxe => ?_)
            rw [hxe] at hx1
            rw [h2.1] at hx1
            exact Bool.false_ne_true hx1
          · rw [if_neg h2]
            exact hacc
  exact key errors [] (by simp)

/-- Witness for `summary_excludes_other_exam_errors`: the error linked
to `"exam-B"` is absent from the fallback-matched group of exam
`"exam-A"` on the shared date. -/
theorem summary_excludes_other_exam_errors_witness :
    otherExamError ∉ (PyVal.vstr "Unknown", [unlinkedError]).2 :=
  summary_excludes_other_exam_errors [otherExamError, unlinkedError]
    "exam-A" (some "01-01-2024") otherExamError (by decide) (by decide)
    (PyVal.vstr "Unknown", [unlinkedError]) (by decide)

/-- Counterexample to C7 as stated: an error whose `mock_exam_id` is the
non-null empty string `""` (different from `"exam-A"`) is still placed
in exam `"exam-A"`'s summary by the same-date fallback, because Python
`not error.get("mock_exam_id")` treats `""` as having no link. -/
theorem summary_includes_empty_id_error :
    get_mock_exam_error_summary [emptyIdError] "exam-A" (some "01-01-2024")
      = [(PyVal.vstr "Math", [emptyIdError])] ∧
    emptyIdError.mock_exam_id ≠ none ∧
    emptyIdError.mock_exam_id ≠ some "exam-A" := by
  refine ⟨by decide, by decide, by decide⟩

/-- Inserting a key below every key of a list puts it at the front. -/
theorem insertByKey_front (x : ℤ × DayEntry) (l : List (ℤ × DayEntry))
    (hle : ∀ y ∈ l, x.1 ≤ y.1) : insertByKey x l = x :: l := by
  cases l with
  | nil => rfl
  | cons y ys =>
      unfold insertByKey
      rw [if_pos (hle y (List.mem_cons_self _ _))]

/-- Sorting a list already sorted by ascending key leaves it unchanged. -/
theorem sortByKey_pairwise_id (l : List (ℤ × DayEntry))
    (h : l.Pairwise (fun a b => a.1 ≤ b.1)) : sortByKey l = l := by
  induction l with
  | nil => rfl
  | cons x xs ih =>
      obtain ⟨h1, h2⟩ := List.pairwise_cons.mp h
      unfold sortByKey
      rw [List.foldr_cons]
      have hxs : sortByKey xs = xs := ih h2
      unfold sortByKey at hxs
      rw [hxs]
      exact insertByKey_front x xs h1

/-- The heatmap seed (one entry per day, ascending) is already sorted. -/
theorem sortByKey_seed (base : ℤ) (n : ℕ) :
    sortByKey ((List.range n).map (fun i : ℕ =>
        (base + (i : ℤ), (⟨base + (i : ℤ), 0, 0, 0, 0⟩ : DayEntry))))
      = (List.range n).map (fun i : ℕ =>
          (base + (i : ℤ), (⟨base + (i : ℤ), 0, 0, 0, 0⟩ : DayEntry))) := by
  apply sortByKey_pairwise_id
  rw [List.pairwise_map]
  refine List.Pairwise.imp ?_ (List.pairwise_lt_range n)
  intro a b hab
  simp only []
  omega

/-- C8: over empty sessions, errors and exams with `days = 30`,
`get_activity_heatmap_data` returns exactly 31 entries, one per calendar
day from `today - 30` to `today` inclusive in ascending order, each with
zero questions, errors, exams and study time and intensity 0. -/
theorem heatmap_empty_window (pd : String → Option ℤ) (today : ℤ) :
    get_activity_heatmap_data pd today [] [] [] 30
      = (List.range 31).map (fun i : ℕ =>
          ⟨today - 30 + (i : ℤ), 0, 0, 0, 0, 0, today - 30 + (i : ℤ)⟩) := by
  unfold get_activity_heatmap_data
  simp only [List.foldl_nil]
  rw [sortByKey_seed]
  rw [List.map_map]
  have h31 : (30 : ℕ) + 1 = 31 := rfl
  rw [h31]
  refine List.map_congr_left (fun i hi => ?_)
  simp only [Function.comp, heatmapIntensity, if_pos rfl, HeatDay.mk.injEq]
  norm_num

end ErrorAutopsy
